import Mathlib

/-!
Shallow embedding of the sales-analytics pipeline
(`src/utils/data_processor.py`, `src/utils/api_handler.py`).

Transactions are the dictionaries produced by `parse_transactions`:
`Quantity` is a Python `int` (modelled as `Int`), `UnitPrice` a Python
`float` (modelled exactly as `ℚ`), all other fields strings.  Python
dictionaries used as insertion-ordered grouping maps are modelled as
association lists over `String` keys (`groupAccum` mirrors the
`if key not in d: d[key] = init` / update pattern); Python's stable
`sort`/`sorted` is modelled by `List.insertionSort` with the
"may stay before" relation, which is stable and agrees with Python's
stable mergesort; functions that can raise are modelled in `Except`.
-/

namespace SalesAnalytics

/-- A transaction dictionary as produced by `parse_transactions`
(data_processor.py lines 80-89). -/
structure Transaction where
  transactionID : String
  date : String
  productID : String
  productName : String
  quantity : Int
  unitPrice : ℚ
  customerID : String
  region : String
deriving DecidableEq

/-- The derived amount `t["Quantity"] * t["UnitPrice"]`, recomputed on
demand everywhere the source writes that product. -/
def Transaction.amount (t : Transaction) : ℚ := (t.quantity : ℚ) * t.unitPrice

/-- Python `s.startswith(p)`: `p`'s characters are a prefix of `s`'s. -/
def strStartsWith (s p : String) : Bool := List.isPrefixOf p.data s.data

/-- Python truthiness of an optional string (`if region and ...`):
`None` and the empty string are falsy. -/
def optStrTruthy : Option String → Bool
  | none => false
  | some s => !s.isEmpty

/-- Python truthiness of an optional number (`if min_amount and ...`):
`None` and `0` are falsy. -/
def optRatTruthy : Option ℚ → Bool
  | none => false
  | some x => x != 0

/-- The structural-validation test of `validate_and_filter`
(data_processor.py lines 102-109): the `or`-chain that sends a
transaction to `invalid_count`. -/
def failsValidation (t : Transaction) : Bool :=
  decide (t.quantity ≤ 0) ||
  decide (t.unitPrice ≤ 0) ||
  !(strStartsWith t.transactionID "T") ||
  !(strStartsWith t.productID "P") ||
  !(strStartsWith t.customerID "C") ||
  t.region.isEmpty

/-- The `summary` dictionary built at data_processor.py lines 124-131. -/
structure FilterSummary where
  total_input : Nat
  invalid_records : Nat
  filtered_by_region : Option String
  min_amount : Option ℚ
  max_amount : Option ℚ
  final_valid : Nat
deriving DecidableEq

/-- The main loop of `validate_and_filter` (data_processor.py lines
101-122): structural check first, then the three optional exclusion
filters, each guarded by Python truthiness of the supplied option. -/
def filterLoop (region : Option String) (minA maxA : Option ℚ) :
    List Transaction → List Transaction × Nat
  | [] => ([], 0)
  | t :: rest =>
    let (v, ic) := filterLoop region minA maxA rest
    if failsValidation t then (v, ic + 1)
    else if optStrTruthy region && (t.region != region.getD "") then (v, ic)
    else if optRatTruthy minA && decide (t.amount < minA.getD 0) then (v, ic)
    else if optRatTruthy maxA && decide (maxA.getD 0 < t.amount) then (v, ic)
    else (t :: v, ic)

/-- `validate_and_filter(transactions, region, min_amount, max_amount)`
(data_processor.py lines 93-138; the `print` calls are side effects
outside the returned value and are not modelled). -/
def validate_and_filter (ts : List Transaction) (region : Option String)
    (minA maxA : Option ℚ) : List Transaction × Nat × FilterSummary :=
  let (valid, invalid_count) := filterLoop region minA maxA ts
  (valid, invalid_count,
    { total_input := ts.length
      invalid_records := invalid_count
      filtered_by_region := region
      min_amount := minA
      max_amount := maxA
      final_valid := valid.length })

/-- The combined optional-filter pass predicate of the loop. -/
def passesFilters (region : Option String) (minA maxA : Option ℚ)
    (t : Transaction) : Bool :=
  !(optStrTruthy region && (t.region != region.getD "")) &&
  !(optRatTruthy minA && decide (t.amount < minA.getD 0)) &&
  !(optRatTruthy maxA && decide (maxA.getD 0 < t.amount))

/-- A concrete structurally-valid transaction used as a test input. -/
def c1tx : Transaction :=
  ⟨"T1", "2024-01-01", "P1", "Widget", 1, 100, "C1", "North"⟩

/-- Another concrete transaction, used as a test input for the peak-day
analysis. -/
def w7tx : Transaction :=
  ⟨"T2", "2024-02-02", "P2", "Gadget", 2, 50, "C2", "South"⟩

/-! ### Insertion-ordered grouping dictionaries -/

/-- One step of the Python grouping idiom on an insertion-ordered
dictionary: if the key is absent, append `(k, g init)` (the dict's
`d[k] = init` immediately followed by the update); if present, update
its value in place. -/
def updateAssoc (k : String) (g : β → β) (init : β) :
    List (String × β) → List (String × β)
  | [] => [(k, g init)]
  | p :: rest =>
    if p.1 = k then (p.1, g p.2) :: rest else p :: updateAssoc k g init rest

/-- The whole grouping loop `for t in transactions: ...` over an
insertion-ordered dictionary keyed by `key t`. -/
def groupAccum (key : α → String) (upd : α → β → β) (init : β)
    (ts : List α) : List (String × β) :=
  ts.foldl (fun acc t => updateAssoc (key t) (upd t) init acc) []

/-- Dictionary lookup on the association-list model. -/
def lookupKey (k : String) : List (String × β) → Option β
  | [] => none
  | p :: rest => if p.1 = k then some p.2 else lookupKey k rest

/-- The keys of a grouping dictionary, in insertion order. -/
def keysOf (l : List (String × β)) : List String := l.map Prod.fst

/-- Append a key if it is new (insertion order of a Python dict). -/
def insertNewKey (acc : List String) (k : String) : List String :=
  if k ∈ acc then acc else acc ++ [k]

/-- First-occurrence order of a key sequence: the key order a Python
dict built by one grouping pass over the sequence would have. -/
def firstOccKeys (ks : List String) : List String := ks.foldl insertNewKey []

/-- Python `set.add` on a set modelled as a duplicate-free list. -/
def pySetAdd (c : String) (s : List String) : List String :=
  if c ∈ s then s else c :: s

/-- Python `max(items, key=f)`: keeps the first item, replacing it only
when a strictly greater key appears, so ties return the first maximum
encountered; `none` models the `ValueError` on an empty sequence. -/
def pyMaxBy (f : β → ℚ) : List β → Option β
  | [] => none
  | x :: xs => some (xs.foldl (fun acc y => if f acc < f y then y else acc) x)

/-- Python `min` over a nonempty list of strings. -/
def pyMinStr : List String → Option String
  | [] => none
  | s :: rest => some (rest.foldl (fun a b => if b < a then b else a) s)

/-- Python `max` over a nonempty list of strings. -/
def pyMaxStr : List String → Option String
  | [] => none
  | s :: rest => some (rest.foldl (fun a b => if a < b then b else a) s)

/-! ### Aggregator (data_processor.py) -/

/-- `calculate_total_revenue` (lines 140-148). -/
def calculate_total_revenue (ts : List Transaction) : ℚ :=
  ts.foldl (fun total t => total + (t.quantity : ℚ) * t.unitPrice) 0

/-- Per-region accumulator of `region_wise_sales` (lines 163-170). -/
structure RegionAccum where
  total_sales : ℚ
  transactions : Nat
deriving DecidableEq

/-- Per-region statistics after the percentage pass (lines 172-177). -/
structure RegionStat where
  total_sales : ℚ
  transactions : Nat
  percentage : ℚ
deriving DecidableEq

/-- `region_wise_sales` (lines 150-185): group by region, attach the
percentage of the grand total (0 when that total is 0), and sort by
total sales descending (`sorted` is stable). -/
def region_wise_sales (ts : List Transaction) : List (String × RegionStat) :=
  let total := calculate_total_revenue ts
  List.insertionSort (fun a b => a.2.total_sales ≥ b.2.total_sales)
    ((groupAccum (fun t => t.region)
        (fun t (s : RegionAccum) => ⟨s.total_sales + t.amount, s.transactions + 1⟩)
        ⟨0, 0⟩ ts).map
      (fun p => (p.1,
        ⟨p.2.total_sales, p.2.transactions,
         if total ≠ 0 then p.2.total_sales / total * 100 else 0⟩)))

/-- Per-date accumulator of `daily_sales_trend` (lines 198-207). -/
structure DailyAccum where
  revenue : ℚ
  transaction_count : Nat
  unique_customers : List String
deriving DecidableEq

/-- Per-date statistics after the set-to-count pass (lines 209-211). -/
structure DailyStat where
  revenue : ℚ
  transaction_count : Nat
  unique_customers : Nat
deriving DecidableEq

/-- `daily_sales_trend` (lines 187-213): group by date, count distinct
customers via a set, and return the entries sorted by date ascending. -/
def daily_sales_trend (ts : List Transaction) : List (String × DailyStat) :=
  List.insertionSort (fun a b => a.1 ≤ b.1)
    ((groupAccum (fun t => t.date)
        (fun t (s : DailyAccum) => ⟨s.revenue + t.amount, s.transaction_count + 1,
                     pySetAdd t.customerID s.unique_customers⟩) ⟨0, 0, []⟩ ts).map
      (fun p => (p.1, ⟨p.2.revenue, p.2.transaction_count, p.2.unique_customers.length⟩)))

/-- Per-date accumulator of `find_peak_sales_day` (lines 226-233). -/
structure PeakAccum where
  revenue : ℚ
  count : Nat
deriving DecidableEq

/-- The grouping pass of `find_peak_sales_day` (lines 220-233). -/
def groupDaily (ts : List Transaction) : List (String × PeakAccum) :=
  groupAccum (fun t => t.date)
    (fun t s => ⟨s.revenue + t.amount, s.count + 1⟩) ⟨0, 0⟩ ts

/-- `find_peak_sales_day` (lines 215-236): `max` over the grouped dates
by revenue; raises `ValueError` on an empty input. -/
def find_peak_sales_day (ts : List Transaction) :
    Except String (String × ℚ × Nat) :=
  match pyMaxBy (fun p => p.2.revenue) (groupDaily ts) with
  | none => Except.error "ValueError: max() arg is an empty sequence"
  | some p => Except.ok (p.1, p.2.revenue, p.2.count)

/-- Per-product accumulator of the ranking functions (lines 250-257). -/
structure ProdStat where
  qty : Int
  revenue : ℚ
deriving DecidableEq

/-- The grouping pass of `top_selling_products` (lines 243-257). -/
def groupProducts (ts : List Transaction) : List (String × ProdStat) :=
  groupAccum (fun t => t.productName)
    (fun t s => ⟨s.qty + t.quantity, s.revenue + t.amount⟩) ⟨0, 0⟩ ts

/-- `top_selling_products` (lines 238-265; default `n = 5` in the
source): list the grouped totals, stable-sort by quantity descending,
truncate to the first `n`. -/
def top_selling_products (ts : List Transaction) (n : Nat) :
    List (String × Int × ℚ) :=
  (List.insertionSort (fun a b => a.2.1 ≥ b.2.1)
    ((groupProducts ts).map (fun p => (p.1, p.2.qty, p.2.revenue)))).take n

/-- `low_performing_products` (lines 267-295; default `threshold = 10`):
keep grouped products of quantity strictly below the threshold, sorted
by quantity ascending. -/
def low_performing_products (ts : List Transaction) (threshold : Int) :
    List (String × Int × ℚ) :=
  List.insertionSort (fun a b => a.2.1 ≤ b.2.1)
    (((groupProducts ts).filter (fun p => p.2.qty < threshold)).map
      (fun p => (p.1, p.2.qty, p.2.revenue)))

/-- Per-customer accumulator of `customer_analysis` (lines 308-317). -/
structure CustomerAccum where
  total_spent : ℚ
  purchase_count : Nat
  products : List String
deriving DecidableEq

/-- Per-customer statistics after the formatting pass (lines 320-325). -/
structure CustomerStat where
  total_spent : ℚ
  purchase_count : Nat
  average_order_value : ℚ
  products_bought : List String
deriving DecidableEq

/-- `customer_analysis` (lines 297-327).  The statement
`from datetime import datetime` at line 329 sits after this function's
`return` and is never executed, so it binds nothing anywhere. -/
def customer_analysis (ts : List Transaction) : List (String × CustomerStat) :=
  (groupAccum (fun t => t.customerID)
      (fun t (s : CustomerAccum) => ⟨s.total_spent + t.amount, s.purchase_count + 1,
                   pySetAdd t.productName s.products⟩) ⟨0, 0, []⟩ ts).map
    (fun p => (p.1,
      ⟨p.2.total_spent, p.2.purchase_count,
       p.2.total_spent / (p.2.purchase_count : ℚ), p.2.products⟩))

/-! ### Enricher (api_handler.py) -/

/-- A catalog entry of `create_product_mapping` (api_handler.py lines
46-51): every field comes from `.get` and may be null. -/
structure ApiInfo where
  title : Option String
  category : Option String
  brand : Option String
  rating : Option ℚ
deriving DecidableEq

/-- An enriched transaction: the copied input record plus the four API
fields added by `enrich_sales_data` (api_handler.py lines 74-82). -/
structure EnrichedTransaction where
  base : Transaction
  API_Category : Option String
  API_Brand : Option String
  API_Rating : Option ℚ
  API_Match : Bool
deriving DecidableEq

/-- The numeric-key extraction `int(t["ProductID"][1:])` of
api_handler.py lines 67-70 (`String.toInt?` models Python `int` on the
suffix: optional sign plus digits, failure otherwise); a failure is
caught and treated as "no key". -/
def extractNumericId (pid : String) : Option Int := (pid.drop 1).toInt?

/-- `enrich_sales_data(transactions, product_mapping)` (api_handler.py
lines 56-86); the mapping is the dictionary as a partial function from
numeric ids.  A failed extraction gives `numeric_id = None`, which is
in no int-keyed mapping, so both failure paths take the null branch and
no error escapes. -/
def enrich_sales_data (ts : List Transaction)
    (product_mapping : Int → Option ApiInfo) : List EnrichedTransaction :=
  ts.map (fun t =>
    match extractNumericId t.productID with
    | some nid =>
      match product_mapping nid with
      | some info => ⟨t, info.category, info.brand, info.rating, true⟩
      | none => ⟨t, none, none, none, false⟩
    | none => ⟨t, none, none, none, false⟩)

/-! ### Report renderer (`generate_sales_report`, data_processor.py 332-493) -/

/-- A Python runtime error surfaced by the renderer. -/
inductive PyError where
  | nameError (n : String)
  | valueError (msg : String)
deriving DecidableEq

/-- The names bound at module scope of `utils/data_processor.py`: its
single top-level import (`dataclass`) and its top-level `class`/`def`
statements.  `datetime` is absent: the only `from datetime import
datetime` (line 329) is inside `customer_analysis`, after its `return`,
and is never executed. -/
def dataProcessorTopLevelNames : List String :=
  ["dataclass", "SaleRecord", "_to_int", "parse_and_clean",
   "compute_metrics", "parse_transactions", "validate_and_filter",
   "calculate_total_revenue", "region_wise_sales", "daily_sales_trend",
   "find_peak_sales_day", "top_selling_products",
   "low_performing_products", "customer_analysis", "generate_sales_report"]

/-- The Python builtins the module's code refers to. -/
def pythonBuiltinNames : List String :=
  ["sum", "len", "max", "min", "sorted", "set", "open", "print", "str",
   "int", "float", "list", "dict", "enumerate", "range", "property",
   "dataclass", "abs", "round"]

/-- Name resolution for a global name used inside a function of
`utils/data_processor.py`: module scope, then builtins. -/
def resolvesInDataProcessor (n : String) : Bool :=
  n ∈ dataProcessorTopLevelNames || n ∈ pythonBuiltinNames

/-- The renderer's per-region accumulator (lines 355-362). -/
structure RRegionStat where
  sales : ℚ
  count : Nat
deriving DecidableEq

/-- The renderer's per-region entry after its percentage pass. -/
structure RRegionPct where
  sales : ℚ
  count : Nat
  percentage : ℚ
deriving DecidableEq

/-- The renderer's per-customer accumulator (lines 387-394). -/
structure RCustomerStat where
  spent : ℚ
  count : Nat
deriving DecidableEq

/-- The renderer's per-date accumulator (lines 401-409). -/
structure RDailyStat where
  rev : ℚ
  count : Nat
  customers : List String
deriving DecidableEq

/-- `total_revenue = sum(t["Quantity"] * t["UnitPrice"] for t in
transactions)` (line 346). -/
def report_total_revenue (ts : List Transaction) : ℚ :=
  (ts.map (fun t => (t.quantity : ℚ) * t.unitPrice)).sum

/-- The renderer's own region grouping (lines 355-362). -/
def report_region_stats (ts : List Transaction) : List (String × RRegionStat) :=
  groupAccum (fun t => t.region)
    (fun t s => ⟨s.sales + t.amount, s.count + 1⟩) ⟨0, 0⟩ ts

/-- `region_sorted` (lines 364-367): percentages attached, then sorted
by sales descending. -/
def report_region_sorted (ts : List Transaction) : List (String × RRegionPct) :=
  let total := report_total_revenue ts
  List.insertionSort (fun a b => a.2.sales ≥ b.2.sales)
    ((report_region_stats ts).map (fun p => (p.1,
      ⟨p.2.sales, p.2.count, if total ≠ 0 then p.2.sales / total * 100 else 0⟩)))

/-- The renderer's own product grouping (lines 372-380), the same
qty/revenue accumulation as `top_selling_products`. -/
def report_products (ts : List Transaction) : List (String × ProdStat) :=
  groupAccum (fun t => t.productName)
    (fun t s => ⟨s.qty + t.quantity, s.revenue + t.amount⟩) ⟨0, 0⟩ ts

/-- `top_products = sorted(products.items(), key=lambda x: x[1]["qty"],
reverse=True)[:5]` (line 382): the renderer's internally recomputed
top-5 list. -/
def report_top_products (ts : List Transaction) : List (String × ProdStat) :=
  (List.insertionSort (fun a b => a.2.qty ≥ b.2.qty) (report_products ts)).take 5

/-- `top_customers` (lines 387-396). -/
def report_top_customers (ts : List Transaction) : List (String × RCustomerStat) :=
  (List.insertionSort (fun a b => a.2.spent ≥ b.2.spent)
    (groupAccum (fun t => t.customerID)
      (fun t s => ⟨s.spent + t.amount, s.count + 1⟩) ⟨0, 0⟩ ts)).take 5

/-- The renderer's daily grouping (lines 401-409). -/
def report_daily (ts : List Transaction) : List (String × RDailyStat) :=
  groupAccum (fun t => t.date)
    (fun t s => ⟨s.rev + t.amount, s.count + 1,
                 pySetAdd t.customerID s.customers⟩) ⟨0, 0, []⟩ ts

/-- Deduplicate (a Python set of strings, order irrelevant here because
the caller sorts the result). -/
def pyDedup (l : List String) : List String := l.foldl insertNewKey []

/-- The data `generate_sales_report` computes before writing the file
(the fixed text layout itself is plain formatting of these values). -/
structure ReportData where
  total_records : Nat
  total_revenue : ℚ
  avg_order_value : ℚ
  date_range : Option (String × String)
  region_sorted : List (String × RRegionPct)
  top_products : List (String × ProdStat)
  top_customers : List (String × RCustomerStat)
  daily_sorted : List (String × RDailyStat)
  best_day : String × RDailyStat
  low_products : List String
  avg_txn_region : List (String × ℚ)
  enriched_count : Nat
  success_rate : ℚ
  not_enriched : List String

/-- `generate_sales_report(transactions, enriched_transactions, ...)`
(data_processor.py lines 332-493).  Its first evaluated expression,
`datetime.now()` at line 340, resolves the global name `datetime`;
module scope and builtins lack it, so a `NameError` is raised before
anything is computed or written.  The remaining body (reachable only if
that name resolved) is embedded up to the aggregate values it computes;
`best_day` (line 416) is Python `max` and would raise on an empty
grouping. -/
def generate_sales_report (ts : List Transaction)
    (enriched : List EnrichedTransaction) : Except PyError ReportData :=
  if resolvesInDataProcessor "datetime" then
    match pyMaxBy (fun p => p.2.rev) (report_daily ts) with
    | none => Except.error (PyError.valueError "max() arg is an empty sequence")
    | some best =>
      let total := report_total_revenue ts
      Except.ok
        { total_records := ts.length
          total_revenue := total
          avg_order_value := if ts.length ≠ 0 then total / (ts.length : ℚ) else 0
          date_range :=
            match pyMinStr (ts.map (fun t => t.date)),
                  pyMaxStr (ts.map (fun t => t.date)) with
            | some lo, some hi => some (lo, hi)
            | _, _ => none
          region_sorted := report_region_sorted ts
          top_products := report_top_products ts
          top_customers := report_top_customers ts
          daily_sorted := List.insertionSort (fun a b => a.1 ≤ b.1) (report_daily ts)
          best_day := best
          low_products :=
            ((report_products ts).filter (fun p => p.2.qty < 10)).map Prod.fst
          avg_txn_region :=
            (report_region_stats ts).map (fun p => (p.1, p.2.sales / (p.2.count : ℚ)))
          enriched_count := (enriched.filter (fun r => r.API_Match)).length
          success_rate :=
            if enriched.length ≠ 0 then
              ((enriched.filter (fun r => r.API_Match)).length : ℚ) /
                (enriched.length : ℚ) * 100
            else 0
          not_enriched :=
            List.insertionSort (fun a b => a ≤ b)
              (pyDedup ((enriched.filter (fun r => !r.API_Match)).map
                (fun r => r.base.productName))) }
  else
    Except.error (PyError.nameError "datetime")

end SalesAnalytics

namespace SalesAnalytics

/-! ### Theorems -/

/-! Generic facts about the insertion-ordered grouping dictionaries. -/

lemma lookupKey_updateAssoc (k k' : String) (g : β → β) (init : β) :
    ∀ acc : List (String × β),
      lookupKey k (updateAssoc k' g init acc) =
        if k = k' then some (g ((lookupKey k acc).getD init))
        else lookupKey k acc := by
  intro acc
  induction acc with
  | nil =>
    by_cases h : k = k' <;> simp [updateAssoc, lookupKey, h, eq_comm]
  | cons p rest ih =>
    by_cases hp : p.1 = k'
    · by_cases hk : k = k'
      · have hpk : p.1 = k := by rw [hp, hk]
        simp [updateAssoc, lookupKey, hp, hk, hpk]
      · have hpk : p.1 ≠ k := by rw [hp]; exact fun h => hk h.symm
        have hk2 : ¬ k' = k := fun h => hk h.symm
        simp [updateAssoc, lookupKey, hp, hk, hpk, hk2]
    · by_cases hq : p.1 = k
      · have hk : k ≠ k' := by rw [← hq]; exact hp
        simp [updateAssoc, lookupKey, hp, hq, hk]
      · simp [updateAssoc, lookupKey, hp, hq, ih]

lemma keysOf_updateAssoc (k : String) (g : β → β) (init : β) :
    ∀ acc : List (String × β),
      keysOf (updateAssoc k g init acc) = insertNewKey (keysOf acc) k := by
  intro acc
  induction acc with
  | nil => simp [updateAssoc, keysOf, insertNewKey]
  | cons p rest ih =>
    by_cases hp : p.1 = k
    · have hmem : k ∈ keysOf (p :: rest) := by
        simp only [keysOf, List.map_cons]
        exact hp ▸ List.mem_cons_self p.1 _
      simp [updateAssoc, hp, insertNewKey, hmem, keysOf]
    · have hk : ¬ k = p.1 := fun h => hp h.symm
      simp only [updateAssoc, if_neg hp, keysOf, List.map_cons]
      rw [show List.map Prod.fst (updateAssoc k g init rest) =
            insertNewKey (keysOf rest) k from ih]
      by_cases hm : k ∈ keysOf rest <;>
        · simp only [keysOf] at hm ⊢
          simp [insertNewKey, hm, hk]

lemma keysOf_foldl_groupStep (key : α → String) (upd : α → β → β) (init : β) :
    ∀ (ts : List α) (acc : List (String × β)),
      keysOf (ts.foldl (fun a t => updateAssoc (key t) (upd t) init a) acc) =
        (ts.map key).foldl insertNewKey (keysOf acc) := by
  intro ts
  induction ts with
  | nil => intro acc; rfl
  | cons t rest ih =>
    intro acc
    simp only [List.foldl_cons, List.map_cons, ih, keysOf_updateAssoc]

lemma keysOf_groupAccum (key : α → String) (upd : α → β → β) (init : β)
    (ts : List α) :
    keysOf (groupAccum key upd init ts) = firstOccKeys (ts.map key) := by
  simpa [groupAccum, firstOccKeys, keysOf] using
    keysOf_foldl_groupStep key upd init ts []

lemma nodup_insertNewKey (acc : List String) (k : String) (h : acc.Nodup) :
    (insertNewKey acc k).Nodup := by
  by_cases hm : k ∈ acc
  · simpa [insertNewKey, hm] using h
  · simp [insertNewKey, hm, List.nodup_append, h, List.disjoint_singleton]

lemma nodup_foldl_insertNewKey :
    ∀ (ks : List String) (acc : List String), acc.Nodup →
      (ks.foldl insertNewKey acc).Nodup := by
  intro ks
  induction ks with
  | nil => intro acc h; exact h
  | cons k rest ih =>
    intro acc h
    exact ih _ (nodup_insertNewKey acc k h)

lemma nodup_keysOf_groupAccum (key : α → String) (upd : α → β → β) (init : β)
    (ts : List α) : (keysOf (groupAccum key upd init ts)).Nodup := by
  rw [keysOf_groupAccum]
  exact nodup_foldl_insertNewKey _ [] List.nodup_nil

lemma lookupKey_eq_some_of_mem :
    ∀ {l : List (String × β)}, (keysOf l).Nodup →
      ∀ {p : String × β}, p ∈ l → lookupKey p.1 l = some p.2 := by
  intro l
  induction l with
  | nil => intro _ p hp; simp at hp
  | cons q rest ih =>
    intro hnd p hp
    simp only [keysOf, List.map_cons, List.nodup_cons] at hnd
    obtain ⟨hq, hrest⟩ := hnd
    rcases List.mem_cons.mp hp with h | h
    · subst h; simp [lookupKey]
    · have hne : q.1 ≠ p.1 := by
        intro he
        exact hq (he ▸ List.mem_map_of_mem Prod.fst h)
      have hrest' : (keysOf rest).Nodup := hrest
      simp [lookupKey, hne, ih hrest' h]

lemma mem_of_lookupKey_eq_some :
    ∀ {l : List (String × β)} {k : String} {v : β},
      lookupKey k l = some v → (k, v) ∈ l := by
  intro l
  induction l with
  | nil => intro k v h; simp [lookupKey] at h
  | cons q rest ih =>
    intro k v h
    cases q with
    | mk qk qv =>
      by_cases hq : qk = k
      · subst hq
        simp [lookupKey] at h
        subst h
        exact List.mem_cons_self _ _
      · simp [lookupKey, hq] at h
        exact List.mem_cons_of_mem _ (ih h)

lemma lookupKey_foldl_some (key : α → String) (upd : α → β → β) (init : β)
    (k : String) :
    ∀ (ts : List α) (acc : List (String × β)) (v : β),
      lookupKey k acc = some v →
      lookupKey k (ts.foldl (fun a t => updateAssoc (key t) (upd t) init a) acc) =
        some ((ts.filter (fun t => key t = k)).foldl (fun w t => upd t w) v) := by
  intro ts
  induction ts with
  | nil => intro acc v hv; simpa using hv
  | cons t rest ih =>
    intro acc v hv
    by_cases hk : key t = k
    · have hstep : lookupKey k (updateAssoc (key t) (upd t) init acc) =
          some (upd t v) := by
        rw [lookupKey_updateAssoc]
        simp [hk, hv]
      simpa [List.foldl_cons, List.filter_cons, hk] using
        ih (updateAssoc (key t) (upd t) init acc) (upd t v) hstep
    · have hne : ¬ (k = key t) := fun h => hk h.symm
      have hstep : lookupKey k (updateAssoc (key t) (upd t) init acc) = some v := by
        rw [lookupKey_updateAssoc, if_neg hne]
        exact hv
      simpa [List.foldl_cons, List.filter_cons, hk] using
        ih (updateAssoc (key t) (upd t) init acc) v hstep

lemma lookupKey_foldl_none (key : α → String) (upd : α → β → β) (init : β)
    (k : String) :
    ∀ (ts : List α) (acc : List (String × β)),
      lookupKey k acc = none →
      lookupKey k (ts.foldl (fun a t => updateAssoc (key t) (upd t) init a) acc) =
        if (ts.filter (fun t => key t = k)).isEmpty then none
        else some ((ts.filter (fun t => key t = k)).foldl (fun w t => upd t w) init) := by
  intro ts
  induction ts with
  | nil => intro acc hv; simpa using hv
  | cons t rest ih =>
    intro acc hv
    by_cases hk : key t = k
    · have hstep : lookupKey k (updateAssoc (key t) (upd t) init acc) =
          some (upd t init) := by
        rw [lookupKey_updateAssoc]
        simp [hk, hv]
      simpa [List.foldl_cons, List.filter_cons, hk, List.isEmpty] using
        lookupKey_foldl_some key upd init k rest
          (updateAssoc (key t) (upd t) init acc) (upd t init) hstep
    · have hne : ¬ (k = key t) := fun h => hk h.symm
      have hstep : lookupKey k (updateAssoc (key t) (upd t) init acc) = none := by
        rw [lookupKey_updateAssoc, if_neg hne]
        exact hv
      simpa [List.foldl_cons, List.filter_cons, hk] using
        ih (updateAssoc (key t) (upd t) init acc) hstep

lemma lookupKey_groupAccum (key : α → String) (upd : α → β → β) (init : β)
    (k : String) (ts : List α) :
    lookupKey k (groupAccum key upd init ts) =
      if (ts.filter (fun t => key t = k)).isEmpty then none
      else some ((ts.filter (fun t => key t = k)).foldl (fun w t => upd t w) init) := by
  exact lookupKey_foldl_none key upd init k ts [] rfl

lemma groupAccum_mem_value (key : α → String) (upd : α → β → β) (init : β)
    {ts : List α} {p : String × β} (hp : p ∈ groupAccum key upd init ts) :
    (ts.filter (fun t => key t = p.1)) ≠ [] ∧
    p.2 = ((ts.filter (fun t => key t = p.1)).foldl (fun w t => upd t w) init) := by
  have hl : lookupKey p.1 (groupAccum key upd init ts) = some p.2 :=
    lookupKey_eq_some_of_mem (nodup_keysOf_groupAccum key upd init ts) hp
  rw [lookupKey_groupAccum] at hl
  by_cases he : (ts.filter (fun t => key t = p.1)) = []
  · rw [if_pos (by simp [he])] at hl
    exact absurd hl (by simp)
  · rw [if_neg (by simpa [List.isEmpty_iff] using he)] at hl
    exact ⟨he, (Option.some.injEq _ _ ▸ hl).symm⟩

lemma groupAccum_ne_nil (key : α → String) (upd : α → β → β) (init : β)
    {ts : List α} (h : ts ≠ []) : groupAccum key upd init ts ≠ [] := by
  have haux : ∀ (l : List α) (acc : List (String × β)), acc ≠ [] →
      l.foldl (fun a t => updateAssoc (key t) (upd t) init a) acc ≠ [] := by
    intro l
    induction l with
    | nil => intro acc h; exact h
    | cons t rest ih =>
      intro acc _
      refine ih _ ?_
      cases acc with
      | nil => simp [updateAssoc]
      | cons q qs =>
        by_cases hq : q.1 = key t <;> simp [updateAssoc, hq]
  cases ts with
  | nil => exact absurd rfl h
  | cons t rest =>
    have : updateAssoc (key t) (upd t) init ([] : List (String × β)) ≠ [] := by
      simp [updateAssoc]
    simpa [groupAccum] using haux rest _ this

lemma sum_map_updateAssoc (proj : β → ℚ) (k : String) (g : β → β) (init : β)
    (w : ℚ) (hg : ∀ v, proj (g v) = proj v + w) (hinit : proj init = 0) :
    ∀ acc : List (String × β),
      ((updateAssoc k g init acc).map (fun p => proj p.2)).sum =
        ((acc.map (fun p => proj p.2)).sum) + w := by
  intro acc
  induction acc with
  | nil => simp [updateAssoc, hg, hinit]
  | cons p rest ih =>
    by_cases hp : p.1 = k
    · simp only [updateAssoc, if_pos hp, List.map_cons, List.sum_cons, hg]
      ring
    · simp only [updateAssoc, if_neg hp, List.map_cons, List.sum_cons, ih]
      ring

lemma sum_map_groupAccum (key : α → String) (upd : α → β → β) (init : β)
    (proj : β → ℚ) (w : α → ℚ)
    (hupd : ∀ t v, proj (upd t v) = proj v + w t) (hinit : proj init = 0)
    (ts : List α) :
    ((groupAccum key upd init ts).map (fun p => proj p.2)).sum = (ts.map w).sum := by
  have haux : ∀ (l : List α) (acc : List (String × β)),
      ((l.foldl (fun a t => updateAssoc (key t) (upd t) init a) acc).map
        (fun p => proj p.2)).sum =
        ((acc.map (fun p => proj p.2)).sum) + (l.map w).sum := by
    intro l
    induction l with
    | nil => intro acc; simp
    | cons t rest ih =>
      intro acc
      rw [List.foldl_cons, ih,
        sum_map_updateAssoc proj (key t) (upd t) init (w t) (hupd t) hinit]
      simp only [List.map_cons, List.sum_cons]
      ring
  simpa [groupAccum] using haux ts []

lemma foldl_add_amount (l : List Transaction) :
    ∀ a : ℚ, l.foldl (fun total t => total + (t.quantity : ℚ) * t.unitPrice) a =
      a + (l.map Transaction.amount).sum := by
  induction l with
  | nil => intro a; simp
  | cons t rest ih =>
    intro a
    rw [List.foldl_cons, ih]
    simp only [List.map_cons, List.sum_cons, Transaction.amount]
    ring

lemma calculate_total_revenue_eq (ts : List Transaction) :
    calculate_total_revenue ts = (ts.map Transaction.amount).sum := by
  simpa [calculate_total_revenue] using foldl_add_amount ts 0

lemma sum_map_insertionSort (r : γ → γ → Prop) [DecidableRel r] (l : List γ)
    (f : γ → ℚ) :
    ((List.insertionSort r l).map f).sum = (l.map f).sum :=
  ((List.perm_insertionSort r l).map f).sum_eq

lemma region_group_sales_sum (ts : List Transaction) :
    ((groupAccum (fun t => t.region)
        (fun t (s : RegionAccum) => ⟨s.total_sales + t.amount, s.transactions + 1⟩)
        ⟨0, 0⟩ ts).map (fun p => p.2.total_sales)).sum = calculate_total_revenue ts := by
  rw [calculate_total_revenue_eq]
  exact sum_map_groupAccum _ _ _ RegionAccum.total_sales Transaction.amount
    (fun t v => rfl) rfl ts

lemma daily_group_revenue_sum (ts : List Transaction) :
    ((groupAccum (fun t => t.date)
        (fun t (s : DailyAccum) => ⟨s.revenue + t.amount, s.transaction_count + 1,
                     pySetAdd t.customerID s.unique_customers⟩)
        ⟨0, 0, []⟩ ts).map (fun p => p.2.revenue)).sum = calculate_total_revenue ts := by
  rw [calculate_total_revenue_eq]
  exact sum_map_groupAccum _ _ _ DailyAccum.revenue Transaction.amount
    (fun t v => rfl) rfl ts

lemma sum_map_div_mul (l : List (String × RegionAccum)) (c : ℚ) :
    (l.map (fun p => p.2.total_sales / c * 100)).sum =
      ((l.map (fun p => p.2.total_sales)).sum) / c * 100 := by
  induction l with
  | nil => simp
  | cons p rest ih =>
    simp only [List.map_cons, List.sum_cons, ih]
    ring

lemma prod_foldl (l : List Transaction) :
    ∀ s : ProdStat,
      l.foldl (fun w t => ⟨w.qty + t.quantity, w.revenue + t.amount⟩) s =
        ⟨s.qty + (l.map (fun t => t.quantity)).sum,
         s.revenue + (l.map Transaction.amount).sum⟩ := by
  induction l with
  | nil => intro s; simp
  | cons t rest ih =>
    intro s
    rw [List.foldl_cons, ih]
    simp only [List.map_cons, List.sum_cons, ProdStat.mk.injEq]
    constructor <;> ring

lemma peak_foldl (l : List Transaction) :
    ∀ s : PeakAccum,
      l.foldl (fun w t => ⟨w.revenue + t.amount, w.count + 1⟩) s =
        ⟨s.revenue + (l.map Transaction.amount).sum, s.count + l.length⟩ := by
  induction l with
  | nil => intro s; simp
  | cons t rest ih =>
    intro s
    rw [List.foldl_cons, ih]
    simp only [List.map_cons, List.sum_cons, List.length_cons, PeakAccum.mk.injEq]
    constructor
    · ring
    · omega

lemma pyMax_foldl_spec (f : β → ℚ) :
    ∀ (xs : List β) (a : β),
      ∃ pre post,
        a :: xs = pre ++ (xs.foldl (fun acc y => if f acc < f y then y else acc) a) :: post ∧
        (∀ y ∈ pre, f y < f (xs.foldl (fun acc y => if f acc < f y then y else acc) a)) ∧
        (∀ y ∈ post, f y ≤ f (xs.foldl (fun acc y => if f acc < f y then y else acc) a)) := by
  intro xs
  induction xs with
  | nil =>
    intro a
    exact ⟨[], [], rfl, by simp, by simp⟩
  | cons y rest ih =>
    intro a
    rw [List.foldl_cons]
    by_cases h : f a < f y
    · rw [if_pos h]
      obtain ⟨pre', post', heq, hpre, hpost⟩ := ih y
      have hyr : f y ≤ f (rest.foldl (fun acc y => if f acc < f y then y else acc) y) := by
        cases pre' with
        | nil =>
          obtain ⟨h1, _⟩ := List.cons_eq_cons.mp (by simpa using heq)
          rw [← h1]
        | cons q pre'' =>
          obtain ⟨h1, _⟩ := List.cons_eq_cons.mp (by simpa using heq)
          exact le_of_lt (h1 ▸ hpre q (List.mem_cons_self q pre''))
      refine ⟨a :: pre', post', ?_, ?_, hpost⟩
      · simpa using congrArg (List.cons a) heq
      · intro z hz
        rcases List.mem_cons.mp hz with hz | hz
        · subst hz; exact lt_of_lt_of_le h hyr
        · exact hpre z hz
    · rw [if_neg h]
      obtain ⟨pre', post', heq, hpre, hpost⟩ := ih a
      cases pre' with
      | nil =>
        obtain ⟨h1, h2⟩ := List.cons_eq_cons.mp (by simpa using heq)
        refine ⟨[], y :: post', ?_, by simp, ?_⟩
        · simp only [List.nil_append]
          rw [← h1, ← h2]
        · intro z hz
          rcases List.mem_cons.mp hz with hz | hz
          · subst hz; rw [← h1]; exact not_lt.mp h
          · exact hpost z hz
      | cons q pre'' =>
        obtain ⟨h1, h2⟩ := List.cons_eq_cons.mp (by simpa using heq)
        refine ⟨a :: y :: pre'', post', ?_, ?_, hpost⟩
        · simpa using congrArg (fun l => a :: List.cons y l) h2
        · have haq : f a <
              f (rest.foldl (fun acc y => if f acc < f y then y else acc) a) := by
            have hq := hpre q (List.mem_cons_self q pre'')
            rwa [← h1] at hq
          intro z hz
          rcases List.mem_cons.mp hz with hz | hz
          · subst hz; exact haq
          · rcases List.mem_cons.mp hz with hz | hz
            · subst hz; exact lt_of_le_of_lt (not_lt.mp h) haq
            · exact hpre z (List.mem_cons_of_mem q hz)

lemma pyMaxBy_spec (f : β → ℚ) (l : List β) (h : l ≠ []) :
    ∃ r pre post, pyMaxBy f l = some r ∧ l = pre ++ r :: post ∧
      (∀ y ∈ pre, f y < f r) ∧ (∀ y ∈ post, f y ≤ f r) := by
  cases l with
  | nil => exact absurd rfl h
  | cons a xs =>
    obtain ⟨pre, post, heq, hpre, hpost⟩ := pyMax_foldl_spec f xs a
    exact ⟨_, pre, post, rfl, heq, hpre, hpost⟩

lemma not_decide_lt (a b : ℚ) : (!decide (a < b)) = decide (b ≤ a) := by
  by_cases h : a < b
  · simp [h, not_le.mpr h]
  · simp [h, not_lt.mp h]

lemma filterLoop_eq (region : Option String) (minA maxA : Option ℚ) :
    ∀ ts : List Transaction,
      filterLoop region minA maxA ts =
        (ts.filter (fun t => !failsValidation t && passesFilters region minA maxA t),
         (ts.filter (fun t => failsValidation t)).length) := by
  intro ts
  induction ts with
  | nil => rfl
  | cons t rest ih =>
    simp only [filterLoop, ih]
    by_cases hf : failsValidation t
    · simp [hf, List.filter]
    · by_cases hr : (optStrTruthy region && (t.region != region.getD "")) = true
      · simp [hf, hr, List.filter, passesFilters]
      · by_cases hm : (optRatTruthy minA && decide (t.amount < minA.getD 0)) = true
        · simp [hf, hr, hm, List.filter, passesFilters]
        · by_cases hM : (optRatTruthy maxA && decide (maxA.getD 0 < t.amount)) = true
          · simp [hf, hr, hm, hM, List.filter, passesFilters]
          · simp [hf, hr, hm, hM, List.filter, passesFilters]

/-- C4: `validate_and_filter` counts in `invalid_count` exactly the
transactions failing the structural checks (quantity > 0, unit_price > 0,
prefixes "T"/"P"/"C", non-empty region), returns the kept transactions as
an order-preserving filter of the input, and reports `total_input` as the
input length and `final_valid` as the length of the returned sequence. -/
theorem validate_and_filter_spec (ts : List Transaction) (region : Option String)
    (minA maxA : Option ℚ) :
    (validate_and_filter ts region minA maxA).2.1 =
      (ts.filter (fun t => failsValidation t)).length ∧
    (validate_and_filter ts region minA maxA).1 =
      ts.filter (fun t => !failsValidation t && passesFilters region minA maxA t) ∧
    ((validate_and_filter ts region minA maxA).1).Sublist ts ∧
    (validate_and_filter ts region minA maxA).2.2.total_input = ts.length ∧
    (validate_and_filter ts region minA maxA).2.2.invalid_records =
      (ts.filter (fun t => failsValidation t)).length ∧
    (validate_and_filter ts region minA maxA).2.2.final_valid =
      ((validate_and_filter ts region minA maxA).1).length ∧
    (∀ t : Transaction, failsValidation t = false ↔
      (0 < t.quantity ∧ 0 < t.unitPrice ∧ strStartsWith t.transactionID "T" ∧
       strStartsWith t.productID "P" ∧ strStartsWith t.customerID "C" ∧ t.region ≠ "")) := by
  refine ⟨?_, ?_, ?_, ?_, ?_, ?_, ?_⟩
  · simp [validate_and_filter, filterLoop_eq]
  · simp [validate_and_filter, filterLoop_eq]
  · simp only [validate_and_filter, filterLoop_eq]
    exact List.filter_sublist ts
  · simp [validate_and_filter]
  · simp [validate_and_filter, filterLoop_eq]
  · simp [validate_and_filter]
  · intro t
    simp [failsValidation, not_le, ← String.isEmpty_iff, and_assoc]

/-- C1 counterexample: with `max_amount = 0` supplied, the claim says only
structurally-valid transactions of amount ≤ 0 are kept (none here), but the
code's falsy-zero test skips the bound and keeps the transaction. -/
theorem validate_and_filter_zero_max_counterexample :
    (validate_and_filter [c1tx] none none (some 0)).1 ≠
      List.filter (fun t => !failsValidation t && decide (t.amount ≤ 0)) [c1tx] := by
  have hfail : failsValidation c1tx = false := by decide
  have hamt : ¬ (c1tx.amount ≤ 0) := by norm_num [Transaction.amount, c1tx]
  have h1 : (validate_and_filter [c1tx] none none (some 0)).1 = [c1tx] := by
    simp [validate_and_filter, filterLoop, hfail, optRatTruthy, optStrTruthy]
  have h2 : List.filter (fun t => !failsValidation t && decide (t.amount ≤ 0)) [c1tx] = [] := by
    simp [List.filter, hfail, hamt]
  rw [h1, h2]
  simp

/-- C1 amended: the optional amount filters act as inclusive bounds only
when the supplied bound is nonzero; a supplied bound of exactly 0 is falsy
in Python and is treated as unset (no filtering), and filtered-out records
are never counted in `invalid_records`. -/
theorem validate_and_filter_amount_bounds (ts : List Transaction)
    (minA maxA : Option ℚ) :
    (validate_and_filter ts none minA maxA).1 =
      ts.filter (fun t => !failsValidation t
        && (!optRatTruthy minA || decide (minA.getD 0 ≤ t.amount))
        && (!optRatTruthy maxA || decide (t.amount ≤ maxA.getD 0))) ∧
    (validate_and_filter ts none minA maxA).2.1 =
      (ts.filter (fun t => failsValidation t)).length := by
  constructor
  · simp only [validate_and_filter, filterLoop_eq]
    apply List.filter_congr
    intro t _
    cases hf : failsValidation t
    · cases hm : optRatTruthy minA <;> cases hM : optRatTruthy maxA <;>
        simp [passesFilters, optStrTruthy, hm, hM, not_decide_lt]
    · simp
  · simp [validate_and_filter, filterLoop_eq]

/-- C3: the per-region `total_sales` of `region_wise_sales` and the
per-date `revenue` of `daily_sales_trend` each sum to
`calculate_total_revenue` of the same transaction list (exact equality
in the exact-rational model of the float arithmetic). -/
theorem region_daily_totals_match_revenue (ts : List Transaction) :
    ((region_wise_sales ts).map (fun p => p.2.total_sales)).sum =
      calculate_total_revenue ts ∧
    ((daily_sales_trend ts).map (fun p => p.2.revenue)).sum =
      calculate_total_revenue ts := by
  constructor
  · simp only [region_wise_sales, sum_map_insertionSort, List.map_map]
    exact region_group_sales_sum ts
  · simp only [daily_sales_trend, sum_map_insertionSort, List.map_map]
    exact daily_group_revenue_sum ts

/-- C6: the percentages of `region_wise_sales` sum to exactly 100 when
the total revenue is strictly positive, and are each exactly 0 when the
total revenue is 0 (the division is guarded by `if total_revenue`). -/
theorem region_percentages_spec (ts : List Transaction) :
    (0 < calculate_total_revenue ts →
      ((region_wise_sales ts).map (fun p => p.2.percentage)).sum = 100) ∧
    (calculate_total_revenue ts = 0 →
      ∀ p ∈ region_wise_sales ts, p.2.percentage = 0) := by
  constructor
  · intro h
    have hne : calculate_total_revenue ts ≠ 0 := ne_of_gt h
    simp only [region_wise_sales, sum_map_insertionSort, List.map_map]
    simp only [Function.comp_def, ne_eq, hne, not_false_eq_true, if_true]
    rw [sum_map_div_mul, region_group_sales_sum ts, div_self hne, one_mul]
  · intro h0 p hp
    simp only [region_wise_sales, List.mem_insertionSort] at hp
    obtain ⟨q, _, rfl⟩ := List.mem_map.mp hp
    simp [h0]

/-- C5: `top_selling_products ts n` is the first `n` entries of a list
that is a permutation of the product grouping, sorted by total quantity
descending, with ties kept in the grouping's first-encountered
insertion order; the grouping itself carries, per product name, the sum
of quantities and of revenues, with keys in first-occurrence order. -/
theorem top_selling_products_spec (ts : List Transaction) (n : Nat) :
    ∃ s : List (String × Int × ℚ),
      top_selling_products ts n = s.take n ∧
      s.Perm ((groupProducts ts).map (fun p => (p.1, p.2.qty, p.2.revenue))) ∧
      List.Sorted (fun a b => a.2.1 ≥ b.2.1) s ∧
      (∀ a b : String × Int × ℚ, a.2.1 = b.2.1 →
        List.Sublist [a, b]
          ((groupProducts ts).map (fun p => (p.1, p.2.qty, p.2.revenue))) →
        List.Sublist [a, b] s) ∧
      (∀ p ∈ groupProducts ts,
        p.2.qty = ((ts.filter (fun t => t.productName = p.1)).map
          (fun t => t.quantity)).sum ∧
        p.2.revenue = ((ts.filter (fun t => t.productName = p.1)).map
          Transaction.amount).sum) ∧
      keysOf (groupProducts ts) = firstOccKeys (ts.map (fun t => t.productName)) := by
  refine ⟨_, rfl, ?_, ?_, ?_, ?_, ?_⟩
  · exact List.perm_insertionSort _ _
  · haveI : IsTotal (String × Int × ℚ) (fun a b => a.2.1 ≥ b.2.1) :=
      ⟨fun a b => le_total b.2.1 a.2.1⟩
    haveI : IsTrans (String × Int × ℚ) (fun a b => a.2.1 ≥ b.2.1) :=
      ⟨fun a b c h1 h2 => le_trans h2 h1⟩
    apply List.sorted_insertionSort
  · intro a b hab hsub
    exact List.pair_sublist_insertionSort (le_of_eq hab.symm) hsub
  · intro p hp
    simp only [groupProducts] at hp
    obtain ⟨_, hval⟩ := groupAccum_mem_value _ _ _ hp
    rw [prod_foldl] at hval
    constructor
    · simpa using congrArg ProdStat.qty hval
    · simpa using congrArg ProdStat.revenue hval
  · exact keysOf_groupAccum _ _ _ ts

/-- C7: on a non-empty transaction list, `find_peak_sales_day` returns
the date whose aggregated revenue is maximal, with that date's
aggregated revenue and transaction count; among dates of equal maximal
revenue it returns the first maximum encountered in the grouping's
iteration order, which is the first-occurrence order of dates in the
input. -/
theorem find_peak_sales_day_spec (ts : List Transaction) (h : ts ≠ []) :
    ∃ d rev cnt pre post,
      find_peak_sales_day ts = Except.ok (d, rev, cnt) ∧
      groupDaily ts = pre ++ (d, ⟨rev, cnt⟩) :: post ∧
      (∀ p ∈ pre, p.2.revenue < rev) ∧
      (∀ p ∈ groupDaily ts, p.2.revenue ≤ rev) ∧
      rev = ((ts.filter (fun t => t.date = d)).map Transaction.amount).sum ∧
      cnt = (ts.filter (fun t => t.date = d)).length ∧
      keysOf (groupDaily ts) = firstOccKeys (ts.map (fun t => t.date)) := by
  have hne : groupDaily ts ≠ [] := groupAccum_ne_nil _ _ _ h
  obtain ⟨r, pre, post, hmax, heq, hpre, hpost⟩ :=
    pyMaxBy_spec (fun p => p.2.revenue) (groupDaily ts) hne
  have hmem : r ∈ groupDaily ts := by
    rw [heq]
    exact List.mem_append_right _ (List.mem_cons_self _ _)
  have hmem' : r ∈ groupAccum (fun t => t.date)
      (fun t (s : PeakAccum) => ⟨s.revenue + t.amount, s.count + 1⟩) ⟨0, 0⟩ ts := by
    simpa [groupDaily] using hmem
  obtain ⟨_, hval⟩ := groupAccum_mem_value _ _ _ hmem'
  rw [peak_foldl] at hval
  refine ⟨r.1, r.2.revenue, r.2.count, pre, post, ?_, ?_, hpre, ?_, ?_, ?_, ?_⟩
  · simp [find_peak_sales_day, hmax]
  · simpa using heq
  · intro p hp
    rw [heq] at hp
    rcases List.mem_append.mp hp with hp | hp
    · exact le_of_lt (hpre p hp)
    · rcases List.mem_cons.mp hp with hp | hp
      · rw [hp]
      · exact hpost p hp
  · simpa using congrArg PeakAccum.revenue hval
  · simpa using congrArg PeakAccum.count hval
  · exact keysOf_groupAccum _ _ _ ts

/-- Witness for C7 at the one-element input `[w7tx]`. -/
theorem find_peak_sales_day_spec_witness :
    (([w7tx] : List Transaction) ≠ []) ∧
    (∃ d rev cnt pre post,
      find_peak_sales_day [w7tx] = Except.ok (d, rev, cnt) ∧
      groupDaily [w7tx] = pre ++ (d, ⟨rev, cnt⟩) :: post ∧
      (∀ p ∈ pre, p.2.revenue < rev) ∧
      (∀ p ∈ groupDaily [w7tx], p.2.revenue ≤ rev) ∧
      rev = (([w7tx].filter (fun t => t.date = d)).map Transaction.amount).sum ∧
      cnt = ([w7tx].filter (fun t => t.date = d)).length ∧
      keysOf (groupDaily [w7tx]) = firstOccKeys ([w7tx].map (fun t => t.date))) :=
  ⟨by simp, find_peak_sales_day_spec [w7tx] (by simp)⟩

/-- C8: `enrich_sales_data` returns one enriched record per input
transaction; when the numeric key extracted from the product id is in
the mapping the record carries that entry's category, brand and rating
with `API_Match = true`; on a lookup miss or a failed extraction all
three API fields are null and `API_Match = false` (a recorded outcome,
not an error); with an empty mapping every record is unmatched. -/
theorem enrich_sales_data_spec (ts : List Transaction)
    (pm : Int → Option ApiInfo) :
    (enrich_sales_data ts pm).length = ts.length ∧
    List.Forall₂ (fun (t : Transaction) (r : EnrichedTransaction) =>
      r.base = t ∧
      ((∃ nid info, extractNumericId t.productID = some nid ∧
          pm nid = some info ∧
          r.API_Category = info.category ∧ r.API_Brand = info.brand ∧
          r.API_Rating = info.rating ∧ r.API_Match = true) ∨
       ((extractNumericId t.productID = none ∨
         (∃ nid, extractNumericId t.productID = some nid ∧ pm nid = none)) ∧
        r.API_Category = none ∧ r.API_Brand = none ∧ r.API_Rating = none ∧
        r.API_Match = false)))
      ts (enrich_sales_data ts pm) ∧
    (∀ r ∈ enrich_sales_data ts (fun _ => none),
      r.API_Match = false ∧ r.API_Category = none ∧ r.API_Brand = none ∧
      r.API_Rating = none) := by
  refine ⟨by simp [enrich_sales_data], ?_, ?_⟩
  · rw [enrich_sales_data, List.forall₂_map_right_iff]
    rw [List.forall₂_same]
    intro t _
    cases hnid : extractNumericId t.productID with
    | none => simp [hnid]
    | some nid =>
      cases hpm : pm nid with
      | none => simp [hnid, hpm]
      | some info => simp [hnid, hpm]
  · intro r hr
    simp only [enrich_sales_data, List.mem_map] at hr
    obtain ⟨t, _, rfl⟩ := hr
    cases hnid : extractNumericId t.productID <;> simp [hnid]

/-- C9: the top-5 products list the report renderer recomputes
internally equals, element for element including tie order, the
Aggregator's canonical ranking `top_selling_products ts 5` (the
renderer does not define "top products" with different tie-break
rules). -/
theorem report_top_products_agrees (ts : List Transaction) :
    (report_top_products ts).map (fun p => (p.1, p.2.qty, p.2.revenue)) =
      top_selling_products ts 5 := by
  unfold report_top_products top_selling_products
  rw [show report_products ts = groupProducts ts from rfl]
  rw [List.map_take]
  congr 1
  exact List.map_insertionSort _ _ _ _ (fun a _ b _ => Iff.rfl)

/-- C2: `generate_sales_report` raises `NameError` on every input,
before producing anything: its first evaluated expression resolves the
global name `datetime`, which module scope never binds (the module's
only `datetime` import is unreachable dead code inside
`customer_analysis`). -/
theorem generate_sales_report_raises (ts : List Transaction)
    (enriched : List EnrichedTransaction) :
    generate_sales_report ts enriched =
      Except.error (PyError.nameError "datetime") := by
  have h : resolvesInDataProcessor "datetime" = false := by decide
  simp [generate_sales_report, h]

/-- C10: on the empty transaction list `find_peak_sales_day` does not
return a value: Python's `max` over the empty grouping raises
`ValueError`, modelled as the error outcome. -/
theorem find_peak_sales_day_empty_error :
    find_peak_sales_day [] =
      Except.error "ValueError: max() arg is an empty sequence" := rfl

end SalesAnalytics
